import Mathlib

/-!
Verification of the `ticketd` origin-admission, validation and repository
logic against its sources.

Go strings are modelled as Lean `String`; the Go `strings` operations used
by the code (`TrimSpace`, `ToLower`, `HasPrefix`, `HasSuffix`, `Contains`)
are given explicit executable models over the character list of a string.
`TrimSpace`/`ToLower` handle full Unicode in Go; the model covers the ASCII
range, which is the range all admission-relevant data (hostnames, status
strings, form types) lives in.
-/

deriving instance DecidableEq for Except

/-- Model of Go `strings.TrimSpace`: drop whitespace from both ends. -/
def goTrimSpace (s : String) : String :=
  ⟨((s.data.dropWhile Char.isWhitespace).reverse.dropWhile Char.isWhitespace).reverse⟩

/-- Model of Go `strings.ToLower` (ASCII range). -/
def goToLower (s : String) : String :=
  ⟨s.data.map Char.toLower⟩

/-- Model of Go `strings.HasPrefix`. -/
def goStartsWith (s pre : String) : Bool :=
  pre.data.isPrefixOf s.data

/-- Model of Go `strings.HasSuffix`. -/
def goEndsWith (s suf : String) : Bool :=
  suf.data.isSuffixOf s.data

/-- Model of Go `strings.Contains` for a single-character needle. -/
def goContainsChar (s : String) (c : Char) : Bool :=
  s.data.contains c

/-- `domainAllowed` from `internal/web/handlers_submit.go`: host admission
against a client's allowed domain, with the loopback development
special-cases, translated statement by statement. -/
def domainAllowed (host allowed : String) : Bool :=
  let host := goToLower (goTrimSpace host)
  let allowed := goToLower (goTrimSpace allowed)
  if host = "" ∨ allowed = "" then false
  else
    let host := if goStartsWith host "localhost:" then "localhost" else host
    let allowed := if goStartsWith allowed "localhost:" then "localhost" else allowed
    let host := if goStartsWith host "127.0.0.1:" then "127.0.0.1" else host
    let allowed := if goStartsWith allowed "127.0.0.1:" then "127.0.0.1" else allowed
    if (host = "localhost" ∧ allowed = "127.0.0.1") ∨ (host = "127.0.0.1" ∧ allowed = "localhost") then
      true
    else if host = allowed then true
    else goEndsWith host ("." ++ allowed)

/-- `store.FormType` is a Go string type. -/
abbrev FormType := String

/-- `store.FormTypeSupport`. -/
def FormTypeSupport : FormType := "support"

/-- `store.FormTypeContact`. -/
def FormTypeContact : FormType := "contact"

/-- Status constants of the validator package. -/
def StatusOpen : String := "OPEN"

/-- `validator.StatusInProgress`. -/
def StatusInProgress : String := "IN_PROGRESS"

/-- `validator.StatusClosed`. -/
def StatusClosed : String := "CLOSED"

/-- A row of the `clients` table (`store.Client` without denormalization).
Timestamps are modelled as abstract `Nat` ticks. -/
structure ClientRow where
  id : Int
  name : String
  allowedDomain : String
  createdAt : Nat
deriving Repr, DecidableEq

/-- A row of the `forms` table (`store.Form`). -/
structure FormRow where
  id : Int
  clientID : Int
  name : String
  type : FormType
  createdAt : Nat
deriving Repr, DecidableEq

/-- A row of the `submissions` table. -/
structure SubmissionRow where
  id : Int
  clientID : Int
  formID : Int
  status : String
  name : String
  email : String
  subject : String
  message : String
  priority : String
  ip : String
  userAgent : String
  createdAt : Nat
deriving Repr, DecidableEq

/-- `store.Submission`: a submission as returned by reads, with the client
and form names and the form type denormalized by the SQL join. -/
structure Submission where
  id : Int
  clientID : Int
  client : String
  formID : Int
  form : String
  formType : FormType
  status : String
  name : String
  email : String
  subject : String
  message : String
  priority : String
  ip : String
  userAgent : String
  createdAt : Nat
deriving Repr, DecidableEq

/-- `store.SubmissionInput`. -/
structure SubmissionInput where
  name : String
  email : String
  subject : String
  message : String
  priority : String
  ip : String
  userAgent : String
deriving Repr, DecidableEq

/-- Error kinds of `internal/errors`: `NotFoundError(resource, id)` and
`InvalidInputError(field, reason)`; `Wrap`/`Wrapf` preserve the wrapped
kind for `errors.Is`, so wrapping is modelled as the identity on kinds. -/
inductive Err where
  | notFound (resource : String) (id : Int)
  | invalidInput (field : String) (reason : String)
deriving Repr, DecidableEq

/-- Whether an operation result is an `InvalidInput` failure
(`errors.IsInvalidInput`). -/
def isInvalidInputRes {α : Type} : Except Err α → Bool
  | .error (.invalidInput _ _) => true
  | _ => false

/-- The state of the SQLite database: the three tables in insertion order
plus the next `AUTOINCREMENT` value for submissions. -/
structure StoreState where
  clients : List ClientRow
  forms : List FormRow
  submissions : List SubmissionRow
  nextSubID : Int
deriving Repr, DecidableEq

/-- Database well-formedness: primary keys are unique and the submission
autoincrement counter is ahead of every existing row id. -/
abbrev WF (s : StoreState) : Prop :=
  (s.clients.map ClientRow.id).Nodup ∧
    (s.forms.map FormRow.id).Nodup ∧
    (s.submissions.map SubmissionRow.id).Nodup ∧
    ∀ r ∈ s.submissions, r.id < s.nextSubID

/-- `Store.GetClient`: `SELECT ... FROM clients WHERE id = ?`, `ErrNoRows`
becomes `NotFoundError("client", id)`. -/
def GetClient (s : StoreState) (id : Int) : Except Err ClientRow :=
  match s.clients.find? (fun c => c.id == id) with
  | some c => .ok c
  | none => .error (.notFound "client" id)

/-- `Store.GetForm`. -/
def GetForm (s : StoreState) (id : Int) : Except Err FormRow :=
  match s.forms.find? (fun f => f.id == id) with
  | some f => .ok f
  | none => .error (.notFound "form" id)

/-- `Store.GetSubmission`: the row joined with `clients` and `forms` to
denormalize the names; a failed join yields no row, hence `NotFound`. -/
def GetSubmission (s : StoreState) (id : Int) : Except Err Submission :=
  match s.submissions.find? (fun r => r.id == id) with
  | none => .error (.notFound "submission" id)
  | some r =>
    match s.clients.find? (fun c => c.id == r.clientID),
        s.forms.find? (fun f => f.id == r.formID) with
    | some c, some f =>
      .ok { id := r.id, clientID := r.clientID, client := c.name, formID := r.formID,
            form := f.name, formType := f.type, status := r.status, name := r.name,
            email := r.email, subject := r.subject, message := r.message,
            priority := r.priority, ip := r.ip, userAgent := r.userAgent,
            createdAt := r.createdAt }
    | _, _ => .error (.notFound "submission" id)

/-- `validator.ValidateStatus`: the closed status set, exact strings. -/
def ValidateStatus (status : String) : Except Err Unit :=
  if status = StatusOpen ∨ status = StatusInProgress ∨ status = StatusClosed then .ok ()
  else .error (.invalidInput "status" "must be OPEN, IN_PROGRESS, or CLOSED")

/-- `validator.ValidateString`: trims, then checks requiredness and the
byte-length window (Go `len` counts UTF-8 bytes). -/
def ValidateString (fieldName value : String) (minLength maxLength : Nat)
    (required : Bool) : Except Err Unit :=
  let value := goTrimSpace value
  if value = "" ∧ required then .error (.invalidInput fieldName "is required")
  else if value = "" then .ok ()
  else if value.utf8ByteSize < minLength then
    .error (.invalidInput fieldName "too short")
  else if value.utf8ByteSize > maxLength then
    .error (.invalidInput fieldName "too long")
  else .ok ()

/-- `validator.ValidateEmail`: empty is valid; otherwise the length window
is enforced and the address must parse. `mail.ParseAddress` is external Go
library code, abstracted as the predicate `parseAddrOk`. -/
def ValidateEmail (parseAddrOk : String → Bool) (email : String) : Except Err Unit :=
  if email = "" then .ok ()
  else if email.utf8ByteSize < 3 then .error (.invalidInput "email" "too short")
  else if email.utf8ByteSize > 255 then .error (.invalidInput "email" "too long")
  else if parseAddrOk email then .ok ()
  else .error (.invalidInput "email" "invalid email format")

/-- `validator.ValidateSubmission` (the loose repository-level pass). -/
def ValidateSubmission (parseAddrOk : String → Bool) (input : SubmissionInput) :
    Except Err Unit := do
  if input.name != "" then
    ValidateString "name" input.name 1 255 false
  ValidateEmail parseAddrOk input.email
  if input.subject != "" then
    ValidateString "subject" input.subject 1 500 false
  ValidateString "message" input.message 1 10000 true
  if input.priority != "" then
    ValidateString "priority" input.priority 1 50 false

/-- `validator.TrimSubmissionInput`. -/
def TrimSubmissionInput (input : SubmissionInput) : SubmissionInput :=
  { name := goTrimSpace input.name, email := goTrimSpace input.email,
    subject := goTrimSpace input.subject, message := goTrimSpace input.message,
    priority := goTrimSpace input.priority, ip := goTrimSpace input.ip,
    userAgent := goTrimSpace input.userAgent }

/-- `Store.CreateSubmission`: trim and validate, resolve the form (and with
it the owning client id), insert with status forced to `StatusOpen`, then
re-read the stored row. Errors leave the state unchanged. -/
def CreateSubmission (parseAddrOk : String → Bool) (s : StoreState) (formID : Int)
    (input : SubmissionInput) (now : Nat) : Except Err Submission × StoreState :=
  let input := TrimSubmissionInput input
  match ValidateSubmission parseAddrOk input with
  | .error e => (.error e, s)
  | .ok () =>
    match GetForm s formID with
    | .error e => (.error e, s)
    | .ok form =>
      let row : SubmissionRow :=
        { id := s.nextSubID, clientID := form.clientID, formID := form.id,
          status := StatusOpen, name := input.name, email := input.email,
          subject := input.subject, message := input.message,
          priority := input.priority, ip := input.ip, userAgent := input.userAgent,
          createdAt := now }
      let s' : StoreState :=
        { s with submissions := s.submissions ++ [row], nextSubID := s.nextSubID + 1 }
      (GetSubmission s' s.nextSubID, s')

/-- `Store.UpdateSubmissionStatus`: trim, validate, `UPDATE ... WHERE id = ?`,
then report `NotFound` when the affected-row count is zero. -/
def UpdateSubmissionStatus (s : StoreState) (id : Int) (status : String) :
    Except Err Unit × StoreState :=
  let status := goTrimSpace status
  match ValidateStatus status with
  | .error e => (.error e, s)
  | .ok () =>
    let affected := (s.submissions.filter (fun r => r.id == id)).length
    let submissions := s.submissions.map
      (fun r => if r.id == id then { r with status := status } else r)
    let s' : StoreState := { s with submissions := submissions }
    if affected == 0 then (.error (.notFound "submission" id), s')
    else (.ok (), s')

/-- Modelled from the spec: `DeleteClient` is declared in the `Store`
interface (`internal/store/store.go`) and called by the admin layer
(`handleAdminDeleteClient`), but its SQLite implementation is not among
the sources. The spec prescribes an explicit ordered cascade — delete the
client's submissions, then its forms, then the client row — reporting
`NotFound` (via the affected-row count) when the client does not exist. -/
def DeleteClient (s : StoreState) (id : Int) : Except Err Unit × StoreState :=
  let submissions := s.submissions.filter (fun r => r.clientID != id)
  let forms := s.forms.filter (fun f => f.clientID != id)
  let affected := (s.clients.filter (fun c => c.id == id)).length
  let clients := s.clients.filter (fun c => c.id != id)
  let s' : StoreState :=
    { s with clients := clients, forms := forms, submissions := submissions }
  if affected == 0 then (.error (.notFound "client" id), s')
  else (.ok (), s')

/-- `formatLimit` (sqlite store): `limit <= 0` defaults to the page size 20. -/
def formatLimit (limit : Int) : Int :=
  if limit ≤ 0 then 20 else limit

/-- `formatOffset` (sqlite store): a negative offset clamps to 0. -/
def formatOffset (offset : Int) : Int :=
  if offset < 0 then 0 else offset

/-- Descending creation-time order (`ORDER BY created_at DESC`). -/
def createdDesc (a b : ClientRow) : Prop :=
  b.createdAt ≤ a.createdAt

instance : DecidableRel createdDesc :=
  fun a b => Nat.decLe b.createdAt a.createdAt

instance : IsTotal ClientRow createdDesc :=
  ⟨fun a b => le_total b.createdAt a.createdAt⟩

instance : IsTrans ClientRow createdDesc :=
  ⟨fun _ _ _ hab hbc => le_trans hbc hab⟩

/-- `Store.ListClients`: clamp the pagination arguments, count all rows,
and return the page of clients ordered by creation time descending
(`ORDER BY created_at DESC LIMIT ? OFFSET ?`). -/
def ListClients (s : StoreState) (offset limit : Int) : List ClientRow × Nat :=
  let limit := formatLimit limit
  let offset := formatOffset offset
  let total := s.clients.length
  (((List.insertionSort createdDesc s.clients).drop offset.toNat).take limit.toNat, total)

/-- `validateSubmission` from `internal/web/handlers_submit.go`: the
form-type-specific intake check. It can rewrite the draft (defaulting an
empty support priority to `"medium"`), so it returns the possibly-updated
draft alongside the Go `error` (modelled as `Option String`). -/
def validateSubmission (formType : FormType) (input : SubmissionInput) :
    Option String × SubmissionInput :=
  if input.message = "" then (some "message is required", input)
  else
    let step : Option String × SubmissionInput :=
      if formType = FormTypeSupport then
        if input.subject = "" then (some "subject is required", input)
        else if input.priority = "" then (none, { input with priority := "medium" })
        else (none, input)
      else if formType = FormTypeContact then
        if input.name = "" ∨ input.email = "" then
          (some "name and email are required", input)
        else (none, input)
      else (some "invalid form type", input)
    match step with
    | (some e, inp) => (some e, inp)
    | (none, inp) =>
      if inp.email ≠ "" ∧ goContainsChar inp.email '@' = false then
        (some "invalid email", inp)
      else (none, inp)

/-- `isValidStatus` from `internal/web/middleware.go`: the admin layer's
status check (note `IN_PROGRESS` with an underscore). -/
def isValidStatus (status : String) : Bool :=
  status == "OPEN" || status == "IN_PROGRESS" || status == "CLOSED"

/-- Host extraction of `checkAllowedOrigin`: prefer `Origin`, else fall back
to `Referer`; `url.Parse(...).Hostname()` is external Go library code,
abstracted as `hostnameOf` (returning `""` on a parse error or an empty
hostname, which leaves `host` empty exactly as in the Go code). -/
def extractHost (hostnameOf : String → String) (origin referer : String) : String :=
  if origin ≠ "" then hostnameOf origin
  else if referer ≠ "" then hostnameOf referer
  else ""

/-- `checkAllowedOrigin` from `internal/web/handlers_submit.go`: derive a
host, resolve the form (a failed `parseID` is `formID = none`) and its
owning client, and admit via `domainAllowed`; every failure denies. -/
def checkAllowedOrigin (s : StoreState) (hostnameOf : String → String)
    (origin referer : String) (formID : Option Int) : Bool × String :=
  let host := extractHost hostnameOf origin referer
  if host = "" then (false, "")
  else
    match formID with
    | none => (false, "")
    | some fid =>
      match GetForm s fid with
      | .error _ => (false, "")
      | .ok form =>
        match GetClient s form.clientID with
        | .error _ => (false, "")
        | .ok client =>
          if domainAllowed host client.allowedDomain then (true, origin)
          else (false, "")

/-- Lower-cased, whitespace-trimmed form of an argument; the normalization
step 3 of the spec's OriginGuard algorithm applies before any comparison. -/
def normHost (s : String) : String :=
  goToLower (goTrimSpace s)

/-- The loopback normalization as the spec words it: a `localhost:<port>` or
`127.0.0.1:<port>` argument is reduced to its bare form. -/
def loopbackNormalize (s : String) : String :=
  if goStartsWith s "localhost:" then "localhost"
  else if goStartsWith s "127.0.0.1:" then "127.0.0.1"
  else s

/-- Fully normalized argument as described by claim C1. -/
def c1Norm (s : String) : String :=
  loopbackNormalize (normHost s)

/-- The admission rule exactly as C1's sentence states it: after the
normalizations, the arguments cross-match as loopback literals, or the host
equals the allowed-domain, or ends with `"." ++` the allowed-domain.
(No emptiness condition appears in the claim.) -/
abbrev c1Rule (host allowed : String) : Prop :=
  (c1Norm host = "localhost" ∧ c1Norm allowed = "127.0.0.1") ∨
    (c1Norm host = "127.0.0.1" ∧ c1Norm allowed = "localhost") ∨
    c1Norm host = c1Norm allowed ∨
    goEndsWith (c1Norm host) ("." ++ c1Norm allowed) = true

/-- C7's side condition: the normalized argument is not a loopback literal
and carries no `localhost:`/`127.0.0.1:` prefix. -/
abbrev c7Loopless (s : String) : Prop :=
  normHost s ≠ "localhost" ∧ normHost s ≠ "127.0.0.1" ∧
    goStartsWith (normHost s) "localhost:" = false ∧
    goStartsWith (normHost s) "127.0.0.1:" = false

/-- The plain admission rule of C7: equality of the lower-cased, trimmed
strings, or the host ending with `"."` plus the allowed-domain. -/
abbrev c7PlainRule (host allowed : String) : Prop :=
  normHost host = normHost allowed ∨
    goEndsWith (normHost host) ("." ++ normHost allowed) = true

/-- A concrete tenant for witnesses (the spec's end-to-end scenario). -/
def sampleClient : ClientRow :=
  { id := 1, name := "Acme", allowedDomain := "acme.com", createdAt := 5 }

/-- A concrete contact form owned by `sampleClient`. -/
def sampleForm : FormRow :=
  { id := 1, clientID := 1, name := "Contact Us", type := "contact", createdAt := 6 }

/-- A concrete stored submission of `sampleForm`. -/
def sampleSub : SubmissionRow :=
  { id := 1, clientID := 1, formID := 1, status := "OPEN", name := "Jo",
    email := "jo@x.com", subject := "", message := "hi", priority := "",
    ip := "203.0.113.9", userAgent := "curl", createdAt := 7 }

/-- A concrete database state for witnesses. -/
def sampleState : StoreState :=
  { clients := [sampleClient], forms := [sampleForm], submissions := [sampleSub],
    nextSubID := 2 }

/-- A concrete intake draft for witnesses (empty email, so the abstracted
address parser is never consulted). -/
def sampleInput : SubmissionInput :=
  { name := "Jo", email := "", subject := "Help", message := "hi",
    priority := "medium", ip := "203.0.113.9", userAgent := "curl" }

/-- The intake draft before support validation: empty priority. -/
def sampleDraft : SubmissionInput :=
  { sampleInput with priority := "" }

/-- The row `CreateSubmission` inserts for `sampleInput` at tick 9. -/
def sampleNewRow : SubmissionRow :=
  { id := 2, clientID := 1, formID := 1, status := "OPEN", name := "Jo",
    email := "", subject := "Help", message := "hi", priority := "medium",
    ip := "203.0.113.9", userAgent := "curl", createdAt := 9 }

/-- `sampleState` after that insertion. -/
def sampleState2 : StoreState :=
  { clients := [sampleClient], forms := [sampleForm],
    submissions := [sampleSub, sampleNewRow], nextSubID := 3 }

/-- The denormalized record `CreateSubmission` returns for `sampleInput`. -/
def sampleStored : Submission :=
  { id := 2, clientID := 1, client := "Acme", formID := 1, form := "Contact Us",
    formType := "contact", status := "OPEN", name := "Jo", email := "",
    subject := "Help", message := "hi", priority := "medium",
    ip := "203.0.113.9", userAgent := "curl", createdAt := 9 }

/-- A tenant whose stored allowed-domain is blank (whitespace only). -/
def blankClient : ClientRow :=
  { id := 1, name := "Blank", allowedDomain := " ", createdAt := 1 }

/-- A database state holding `blankClient` and a form it owns. -/
def blankState : StoreState :=
  { clients := [blankClient], forms := [sampleForm], submissions := [], nextSubID := 1 }

theorem loopback_strip_seq (s : String) :
    (if goStartsWith (if goStartsWith s "localhost:" then "localhost" else s) "127.0.0.1:"
        then "127.0.0.1"
        else if goStartsWith s "localhost:" then "localhost" else s) =
      loopbackNormalize s := by
  by_cases h : goStartsWith s "localhost:"
  · have h2 : goStartsWith "localhost" "127.0.0.1:" = false := by decide
    simp [h, h2, loopbackNormalize]
  · simp [h, loopbackNormalize]


/-- C10: the validator package's `ValidateStatus` and the web layer's
`isValidStatus` agree on every string, both accepting precisely
`{OPEN, IN_PROGRESS, CLOSED}`. -/
theorem c10_status_agreement : ∀ s : String,
    ((ValidateStatus s = .ok ()) ↔ isValidStatus s = true) ∧
    (isValidStatus s = true ↔ (s = "OPEN" ∨ s = "IN_PROGRESS" ∨ s = "CLOSED")) := by
  intro s
  unfold ValidateStatus isValidStatus StatusOpen StatusInProgress StatusClosed
  constructor
  · split_ifs with h <;> simp <;> tauto
  · simp [or_assoc]

/-- C6: `UpdateSubmissionStatus` returns `InvalidInput` exactly when the
trimmed status is outside `{OPEN, IN_PROGRESS, CLOSED}`, leaving the state
unchanged in that case, and with a valid status returns `NotFound` exactly
when no submission with the given id exists. -/
theorem c6_update_status_contract : ∀ (s : StoreState) (id : Int) (status : String),
    (isInvalidInputRes (UpdateSubmissionStatus s id status).1 = true ↔
      ¬(goTrimSpace status = "OPEN" ∨ goTrimSpace status = "IN_PROGRESS" ∨
        goTrimSpace status = "CLOSED")) ∧
    (¬(goTrimSpace status = "OPEN" ∨ goTrimSpace status = "IN_PROGRESS" ∨
        goTrimSpace status = "CLOSED") →
      (UpdateSubmissionStatus s id status).2 = s) ∧
    ((goTrimSpace status = "OPEN" ∨ goTrimSpace status = "IN_PROGRESS" ∨
        goTrimSpace status = "CLOSED") →
      ((UpdateSubmissionStatus s id status).1 = .error (.notFound "submission" id) ↔
        ∀ r ∈ s.submissions, r.id ≠ id)) := by
  intro s id status
  by_cases hv : goTrimSpace status = "OPEN" ∨ goTrimSpace status = "IN_PROGRESS" ∨
      goTrimSpace status = "CLOSED"
  · refine ⟨?_, fun hcon => absurd hv hcon, fun _ => ?_⟩
    · by_cases hz : (s.submissions.filter (fun r => r.id == id)).length = 0 <;>
        simp [UpdateSubmissionStatus, ValidateStatus, StatusOpen, StatusInProgress,
          StatusClosed, hv, hz, isInvalidInputRes]
    · by_cases hz : (s.submissions.filter (fun r => r.id == id)).length = 0
      · have hall : ∀ r ∈ s.submissions, r.id ≠ id := by
          rw [List.length_eq_zero, List.filter_eq_nil_iff] at hz
          intro r hr
          simpa using hz r hr
        simp only [UpdateSubmissionStatus, ValidateStatus, StatusOpen, StatusInProgress,
          StatusClosed, if_pos hv, hz]
        simpa using hall
      · have hex : ¬(∀ r ∈ s.submissions, r.id ≠ id) := by
          intro hall
          apply hz
          rw [List.length_eq_zero, List.filter_eq_nil_iff]
          intro r hr
          simpa using hall r hr
        simp only [UpdateSubmissionStatus, ValidateStatus, StatusOpen, StatusInProgress,
          StatusClosed, if_pos hv]
        simp [hz, hex]
  · refine ⟨?_, fun _ => ?_, fun hcon => absurd hcon hv⟩ <;>
      simp [UpdateSubmissionStatus, ValidateStatus, StatusOpen, StatusInProgress,
        StatusClosed, hv, isInvalidInputRes]

/-- C3: the intake's form-type-specific check on a `contact` form fails
with an error whenever the (already trimmed) name or email is empty, and
succeeds whenever name, email and message are non-empty and the email
contains an `@`. -/
theorem c3_contact_validation : ∀ input : SubmissionInput,
    ((input.name = "" ∨ input.email = "") →
      (validateSubmission FormTypeContact input).1.isSome = true) ∧
    ((input.name ≠ "" ∧ input.email ≠ "" ∧ input.message ≠ "" ∧
        goContainsChar input.email '@' = true) →
      validateSubmission FormTypeContact input = (none, input)) := by
  intro input
  constructor
  · intro hmissing
    by_cases hm : input.message = "" <;>
      simp [validateSubmission, FormTypeContact, FormTypeSupport, hm, hmissing]
  · rintro ⟨hn, he, hm, hat⟩
    simp [validateSubmission, FormTypeContact, FormTypeSupport, hn, he, hm, hat]

/-- C1 (amended): `domainAllowed` admits a host for an allowed-domain
exactly when both arguments are non-empty after lower-casing and trimming
and, after the loopback normalization (port-stripping of loopback hosts,
with literal `localhost` and `127.0.0.1` matching each other), the
normalized host equals the normalized allowed-domain or ends with `"."`
followed by it; in particular the four cited example calls evaluate as the
claim states. -/
theorem c1_domainAllowed_exactly :
    (∀ host allowed, domainAllowed host allowed = true ↔
      (normHost host ≠ "" ∧ normHost allowed ≠ "" ∧ c1Rule host allowed)) ∧
    domainAllowed "www.acme.com" "acme.com" = true ∧
    domainAllowed "acme.com.evil.com" "acme.com" = false ∧
    domainAllowed "localhost:5173" "localhost" = true ∧
    domainAllowed "127.0.0.1:3000" "localhost" = true := by
  refine ⟨?_, by decide, by decide, by decide, by decide⟩
  intro host allowed
  by_cases hH : normHost host = ""
  · simp only [normHost] at hH
    simp [domainAllowed, hH, normHost]
  · by_cases hA : normHost allowed = ""
    · simp only [normHost] at hA
      simp [domainAllowed, hA, normHost]
    · simp only [normHost] at hH hA
      simp only [domainAllowed]
      rw [loopback_strip_seq, loopback_strip_seq, if_neg (by tauto)]
      simp only [c1Rule, c1Norm, normHost]
      by_cases hc : (loopbackNormalize (goToLower (goTrimSpace host)) = "localhost" ∧
            loopbackNormalize (goToLower (goTrimSpace allowed)) = "127.0.0.1") ∨
          (loopbackNormalize (goToLower (goTrimSpace host)) = "127.0.0.1" ∧
            loopbackNormalize (goToLower (goTrimSpace allowed)) = "localhost")
      · rw [if_pos hc]
        simp only [true_iff, iff_true]
        refine ⟨hH, hA, ?_⟩
        rcases hc with h | h
        · exact Or.inl h
        · exact Or.inr (Or.inl h)
      · rw [if_neg hc]
        rw [not_or] at hc
        obtain ⟨hc1, hc2⟩ := hc
        by_cases he : loopbackNormalize (goToLower (goTrimSpace host)) =
            loopbackNormalize (goToLower (goTrimSpace allowed))
        · simp [he, hc1, hc2, hH, hA]
        · simp [he, hc1, hc2, hH, hA]

/-- C7 (amended): for arguments that are not loopback literals, carry no
loopback-port prefix, and are non-empty after trimming, `domainAllowed` is
exactly the plain rule: equality of the lower-cased trimmed strings or the
host ending with `"."` plus the allowed-domain. -/
theorem c7_loopback_no_widening :
    ∀ host allowed, c7Loopless host → c7Loopless allowed →
      normHost host ≠ "" → normHost allowed ≠ "" →
      (domainAllowed host allowed = true ↔ c7PlainRule host allowed) := by
  intro host allowed hl ha hne hae
  obtain ⟨hl1, hl2, hl3, hl4⟩ := hl
  obtain ⟨ha1, ha2, ha3, ha4⟩ := ha
  simp only [normHost] at hl1 hl2 hl3 hl4 ha1 ha2 ha3 ha4 hne hae
  simp only [domainAllowed]
  rw [if_neg (by tauto)]
  simp only [hl3, hl4, ha3, ha4, if_false, Bool.false_eq_true]
  rw [if_neg (by
    rintro (⟨h1, _⟩ | ⟨h1, _⟩)
    · exact hl1 h1
    · exact hl2 h1)]
  by_cases he : goToLower (goTrimSpace host) = goToLower (goTrimSpace allowed)
  · simp [he, c7PlainRule, normHost]
  · simp [he, c7PlainRule, normHost]

theorem filter_find?_none_of_unique {α : Type} (p q : α → Bool) (l : List α)
    (h : ∀ x ∈ l, q x = true → p x = false) :
    (l.filter q).find? p = none := by
  rw [List.find?_eq_none]
  intro x hx
  rw [List.mem_filter] at hx
  simp [h x hx.1 hx.2]

/-- C2: a successful `DeleteClient` removes the client, every form it
owns, and every submission of those forms: subsequent `GetForm` and
`GetSubmission` on any of them return `NotFound` (the submissions either
by deletion or because their join against the deleted form finds no row). -/
theorem c2_delete_client_cascades : ∀ (s : StoreState) (cid : Int) (s' : StoreState),
    WF s → DeleteClient s cid = (.ok (), s') →
    GetClient s' cid = .error (.notFound "client" cid) ∧
    (∀ f ∈ s.forms, f.clientID = cid →
      GetForm s' f.id = .error (.notFound "form" f.id)) ∧
    (∀ r ∈ s.submissions, (∃ f ∈ s.forms, f.clientID = cid ∧ r.formID = f.id) →
      GetSubmission s' r.id = .error (.notFound "submission" r.id)) := by
  intro s cid s' hwf hdel
  obtain ⟨hndc, hndf, hnds, hnext⟩ := hwf
  unfold DeleteClient at hdel
  simp only at hdel
  split at hdel
  · simp at hdel
  · simp only [Prod.mk.injEq] at hdel
    obtain ⟨-, hs⟩ := hdel
    subst hs
    refine ⟨?_, ?_, ?_⟩
    · unfold GetClient
      rw [filter_find?_none_of_unique _ _ _ ?_]
      intro c _ hc
      simp only [bne_iff_ne, ne_eq] at hc
      simp [hc]
    · intro f hf hfc
      unfold GetForm
      rw [filter_find?_none_of_unique _ _ _ ?_]
      intro g hg hgc
      simp only [bne_iff_ne, ne_eq] at hgc
      simp only [beq_eq_false_iff_ne, ne_eq]
      intro hid
      exact hgc (by rw [List.inj_on_of_nodup_map hndf hg hf hid, hfc])
    · intro r hr ⟨f, hf, hfc, hrf⟩
      unfold GetSubmission
      by_cases hrc : r.clientID = cid
      · rw [filter_find?_none_of_unique _ _ _ ?_]
        intro x hx hxc
        simp only [bne_iff_ne, ne_eq] at hxc
        simp only [beq_eq_false_iff_ne, ne_eq]
        intro hid
        exact hxc (by rw [List.inj_on_of_nodup_map hnds hx hr hid, hrc])
      · rcases hfind : (List.filter (fun x => x.clientID != cid) s.submissions).find?
            (fun x => x.id == r.id) with _ | r2
        · rw [hfind]
        · rw [hfind]
          dsimp only
          have hr2mem := List.mem_of_find?_eq_some hfind
          rw [List.mem_filter] at hr2mem
          have hr2id : r2.id = r.id := by simpa using List.find?_some hfind
          have hr2 : r2 = r := List.inj_on_of_nodup_map hnds hr2mem.1 hr hr2id
          subst hr2
          have hforms : (List.filter (fun x => x.clientID != cid) s.forms).find?
              (fun x => x.id == r2.formID) = none := by
            apply filter_find?_none_of_unique
            intro g hg hgc
            simp only [bne_iff_ne, ne_eq] at hgc
            simp only [beq_eq_false_iff_ne, ne_eq]
            rw [hrf]
            intro hid
            exact hgc (by rw [List.inj_on_of_nodup_map hndf hg hf hid, hfc])
          rw [hforms]
          rcases hcl : (List.filter (fun x => x.id != cid) s.clients).find?
              (fun x => x.id == r2.clientID) with _ | c <;> rw [hcl]

theorem find?_append_of_none {α : Type} (p : α → Bool) (l1 l2 : List α)
    (h : ∀ x ∈ l1, p x = false) :
    (l1 ++ l2).find? p = l2.find? p := by
  induction l1 with
  | nil => rfl
  | cons a l ih =>
    rw [List.cons_append, List.find?_cons, h a (List.mem_cons_self a l)]
    exact ih fun x hx => h x (List.mem_cons_of_mem a hx)

/-- C5: `CreateSubmission` trims and validates before any write
(validation errors leave the state unchanged), returns `NotFound` and
writes nothing when the form does not exist, and on success stores status
`"OPEN"` regardless of caller input with the client id resolved from the
form. -/
theorem c5_create_submission_contract : ∀ (pOk : String → Bool) (s : StoreState) (fid : Int)
    (input : SubmissionInput) (now : Nat),
    (∀ e, ValidateSubmission pOk (TrimSubmissionInput input) = .error e →
      CreateSubmission pOk s fid input now = (.error e, s)) ∧
    (ValidateSubmission pOk (TrimSubmissionInput input) = .ok () →
      (∀ f ∈ s.forms, f.id ≠ fid) →
      CreateSubmission pOk s fid input now = (.error (.notFound "form" fid), s)) ∧
    (∀ sub s2, WF s → CreateSubmission pOk s fid input now = (.ok sub, s2) →
      sub.status = "OPEN" ∧ ∃ form, GetForm s fid = .ok form ∧ sub.clientID = form.clientID) := by
  intro pOk s fid input now
  refine ⟨?_, ?_, ?_⟩
  · intro e he
    simp [CreateSubmission, he]
  · intro hv hnone
    have hgf : GetForm s fid = .error (.notFound "form" fid) := by
      unfold GetForm
      rw [List.find?_eq_none.mpr ?_]
      intro f hf
      simp [hnone f hf]
    simp [CreateSubmission, hv, hgf]
  · intro sub s2 hwf hcs
    obtain ⟨-, -, -, hnext⟩ := hwf
    rcases hval : ValidateSubmission pOk (TrimSubmissionInput input) with e | u
    · simp [CreateSubmission, hval] at hcs
    · rcases hform : GetForm s fid with e | form
      · simp [CreateSubmission, hval, hform] at hcs
      · simp only [CreateSubmission, hval, hform] at hcs
        rw [Prod.mk.injEq] at hcs
        obtain ⟨heq, -⟩ := hcs
        unfold GetSubmission at heq
        dsimp only at heq
        rw [find?_append_of_none _ _ _ ?_] at heq
        · rw [List.find?_cons] at heq
          simp only [beq_self_eq_true] at heq
          rcases hcf : List.find? (fun c => c.id == form.clientID) s.clients with _ | c <;>
            rw [hcf] at heq
          · simp at heq
          · rcases hff : List.find? (fun f2 => f2.id == form.id) s.forms with _ | f2 <;>
              rw [hff] at heq
            · simp at heq
            · rw [Except.ok.injEq] at heq
              subst heq
              exact ⟨rfl, form, rfl, rfl⟩
        · intro r hr
          have := hnext r hr
          simp only [beq_eq_false_iff_ne, ne_eq]
          omega

theorem createSubmission_ok_inv (pOk : String → Bool) (s : StoreState) (fid : Int)
    (input : SubmissionInput) (now : Nat) (sub : Submission) (s2 : StoreState)
    (hnext : ∀ r ∈ s.submissions, r.id < s.nextSubID)
    (hcs : CreateSubmission pOk s fid input now = (.ok sub, s2)) :
    ∃ form, GetForm s fid = .ok form ∧ sub.status = StatusOpen ∧
      sub.clientID = form.clientID ∧ sub.priority = goTrimSpace input.priority := by
  rcases hval : ValidateSubmission pOk (TrimSubmissionInput input) with e | u
  · simp [CreateSubmission, hval] at hcs
  · rcases hform : GetForm s fid with e | form
    · simp [CreateSubmission, hval, hform] at hcs
    · simp only [CreateSubmission, hval, hform] at hcs
      rw [Prod.mk.injEq] at hcs
      obtain ⟨heq, -⟩ := hcs
      unfold GetSubmission at heq
      dsimp only at heq
      rw [find?_append_of_none _ _ _ ?_] at heq
      · rw [List.find?_cons] at heq
        simp only [beq_self_eq_true] at heq
        rcases hcf : List.find? (fun c => c.id == form.clientID) s.clients with _ | c <;>
          rw [hcf] at heq
        · simp at heq
        · rcases hff : List.find? (fun f2 => f2.id == form.id) s.forms with _ | f2 <;>
            rw [hff] at heq
          · simp at heq
          · rw [Except.ok.injEq] at heq
            subst heq
            exact ⟨form, rfl, rfl, rfl, rfl⟩
      · intro r hr
        have := hnext r hr
        simp only [beq_eq_false_iff_ne, ne_eq]
        omega

/-- C4: a `support` submission passing intake validation has a non-empty
subject, and when the submitted priority was empty the draft leaves intake
with priority `"medium"` and any record subsequently stored by
`CreateSubmission` carries priority `"medium"`. -/
theorem c4_support_defaults_priority : ∀ (input res : SubmissionInput),
    validateSubmission FormTypeSupport input = (none, res) →
    input.subject ≠ "" ∧
    (input.priority = "" →
      res.priority = "medium" ∧
      ∀ (pOk : String → Bool) (s : StoreState) (fid : Int) (now : Nat)
        (sub : Submission) (s2 : StoreState),
        WF s → CreateSubmission pOk s fid res now = (.ok sub, s2) →
        sub.priority = "medium") := by
  intro input res hv
  have hm : input.message ≠ "" := by
    intro hm
    simp [validateSubmission, hm] at hv
  have hsub : input.subject ≠ "" := by
    intro hsub
    simp [validateSubmission, FormTypeSupport, hm, hsub] at hv
  refine ⟨hsub, ?_⟩
  intro hp
  have hres : res = { input with priority := "medium" } := by
    by_cases he : ({ input with priority := "medium" } : SubmissionInput).email ≠ "" ∧
        goContainsChar ({ input with priority := "medium" } : SubmissionInput).email '@' = false
    · simp [validateSubmission, FormTypeSupport, hm, hsub, hp, he] at hv
    · simp [validateSubmission, FormTypeSupport, hm, hsub, hp, he] at hv
      exact hv.symm
  constructor
  · rw [hres]
  · intro pOk s fid now sub s2 hwf hcs
    obtain ⟨form, -, -, -, hpri⟩ :=
      createSubmission_ok_inv pOk s fid res now sub s2 hwf.2.2.2 hcs
    rw [hpri, hres]
    show goTrimSpace "medium" = "medium"
    decide

/-- C8: `ListClients` returns clients ordered by creation time descending,
with an effective limit of 20 whenever `limit ≤ 0` and an effective offset
of 0 whenever `offset < 0`. -/
theorem c8_list_clients_pagination : ∀ (s : StoreState) (offset limit : Int),
    List.Sorted createdDesc (ListClients s offset limit).1 ∧
    (limit ≤ 0 → ListClients s offset limit = ListClients s offset 20) ∧
    (offset < 0 → ListClients s offset limit = ListClients s 0 limit) := by
  intro s offset limit
  refine ⟨?_, ?_, ?_⟩
  · have hs : List.Sorted createdDesc (List.insertionSort createdDesc s.clients) :=
      List.sorted_insertionSort createdDesc s.clients
    unfold ListClients
    exact List.Pairwise.sublist
      ((List.take_sublist _ _).trans (List.drop_sublist _ _)) hs
  · intro h
    simp [ListClients, formatLimit, h]
  · intro h
    simp [ListClients, formatOffset, h]

theorem goToLower_empty : goToLower "" = "" := rfl

theorem domainAllowed_trim_empty : ∀ host allowed : String,
    goTrimSpace host = "" ∨ goTrimSpace allowed = "" →
    domainAllowed host allowed = false := by
  intro host allowed h
  rcases h with h | h <;> simp [domainAllowed, h, goToLower_empty]

/-- C9: origin admission fails closed: `domainAllowed` is false whenever
either argument trims to empty, `checkAllowedOrigin` denies when neither
header yields a hostname, and a client whose stored allowed-domain is
blank admits no origin at all. -/
theorem c9_origin_fail_closed :
    (∀ host allowed : String, goTrimSpace host = "" ∨ goTrimSpace allowed = "" →
      domainAllowed host allowed = false) ∧
    (∀ (s : StoreState) (hostnameOf : String → String) (origin referer : String)
        (formID : Option Int),
      (origin = "" ∨ hostnameOf origin = "") →
      (referer = "" ∨ hostnameOf referer = "") →
      checkAllowedOrigin s hostnameOf origin referer formID = (false, "")) ∧
    (∀ (s : StoreState) (hostnameOf : String → String) (origin referer : String)
        (fid : Int) (form : FormRow) (client : ClientRow),
      GetForm s fid = .ok form → GetClient s form.clientID = .ok client →
      goTrimSpace client.allowedDomain = "" →
      checkAllowedOrigin s hostnameOf origin referer (some fid) = (false, "")) := by
  refine ⟨domainAllowed_trim_empty, ?_, ?_⟩
  · intro s f origin referer formID h1 h2
    have hhost : extractHost f origin referer = "" := by
      unfold extractHost
      rcases h1 with h1 | h1
      · rcases h2 with h2 | h2 <;> simp [h1, h2]
      · rcases eq_or_ne origin "" with ho | ho
        · rcases h2 with h2 | h2 <;> simp [ho, h2]
        · simp [ho, h1]
    simp [checkAllowedOrigin, hhost]
  · intro s f origin referer fid form client hf hc hblank
    by_cases hh : extractHost f origin referer = ""
    · simp [checkAllowedOrigin, hh]
    · simp [checkAllowedOrigin, hh, hf, hc,
        domainAllowed_trim_empty _ _ (Or.inr hblank)]

/-- Counterexample to C1 as stated: at `host = ""`, `allowed = ""` the
claim's normalize-then-compare rule admits (equality of the normalized
strings) while `domainAllowed` rejects. -/
theorem c1_cex_empty_strings : domainAllowed "" "" = false ∧ c1Rule "" "" :=
  ⟨by decide, by decide⟩

/-- Counterexample to C7 as stated: `" "` satisfies the claim's
non-loopback side conditions, yet the plain rule admits the pair
`(" ", " ")` (both normalize to `""`) while `domainAllowed` rejects it. -/
theorem c7_cex_blank_arguments :
    c7Loopless " " ∧ domainAllowed " " " " = false ∧ c7PlainRule " " " " :=
  ⟨by decide, by decide, by decide⟩

/-- Witness for C2 at the concrete sample database. -/
theorem c2_delete_client_cascades_witness :
    GetForm { clients := [], forms := [], submissions := [], nextSubID := 2 } 1 =
      .error (.notFound "form" 1) ∧
    GetSubmission { clients := [], forms := [], submissions := [], nextSubID := 2 } 1 =
      .error (.notFound "submission" 1) := by
  have h := c2_delete_client_cascades sampleState 1
    { clients := [], forms := [], submissions := [], nextSubID := 2 } (by decide) (by decide)
  exact ⟨h.2.1 sampleForm (by decide) (by decide),
    h.2.2 sampleSub (by decide) ⟨sampleForm, by decide, by decide, by decide⟩⟩

/-- Witness for C3 at concrete drafts. -/
theorem c3_contact_validation_witness :
    (validateSubmission FormTypeContact sampleInput).1.isSome = true ∧
    validateSubmission FormTypeContact { sampleInput with email := "jo@x.com" } =
      (none, { sampleInput with email := "jo@x.com" }) :=
  ⟨(c3_contact_validation sampleInput).1 (Or.inr rfl),
   (c3_contact_validation _).2 ⟨by decide, by decide, by decide, by decide⟩⟩

/-- Witness for C4: the concrete stored record has priority `"medium"`. -/
theorem c4_support_defaults_priority_witness : sampleStored.priority = "medium" := by
  have h := c4_support_defaults_priority sampleDraft sampleInput (by decide)
  exact (h.2 (by decide)).2 (fun _ => false) sampleState 1 9 sampleStored sampleState2
    (by decide) (by decide)

/-- Witness for C5 at concrete inputs: a validation failure, a missing
form, and a successful creation. -/
theorem c5_create_submission_contract_witness :
    CreateSubmission (fun _ => false) sampleState 1
        { sampleInput with message := "" } 9 =
      (.error (.invalidInput "message" "is required"), sampleState) ∧
    CreateSubmission (fun _ => false) sampleState 99 sampleInput 9 =
      (.error (.notFound "form" 99), sampleState) ∧
    sampleStored.status = "OPEN" ∧
    (∃ form, GetForm sampleState 1 = .ok form ∧
      sampleStored.clientID = form.clientID) := by
  have h3 := (c5_create_submission_contract (fun _ => false) sampleState 1 sampleInput 9).2.2
    sampleStored sampleState2 (by decide) (by decide)
  exact ⟨(c5_create_submission_contract (fun _ => false) sampleState 1
      { sampleInput with message := "" } 9).1 _ (by decide),
    (c5_create_submission_contract (fun _ => false) sampleState 99 sampleInput 9).2.1
      (by decide) (by decide),
    h3.1, h3.2⟩

/-- Witness for C6 at concrete statuses. -/
theorem c6_update_status_contract_witness :
    isInvalidInputRes (UpdateSubmissionStatus sampleState 1 "BAD").1 = true ∧
    (UpdateSubmissionStatus sampleState 1 "BAD").2 = sampleState ∧
    ((UpdateSubmissionStatus sampleState 9 "CLOSED").1 =
        .error (.notFound "submission" 9) ↔
      ∀ r ∈ sampleState.submissions, r.id ≠ 9) :=
  ⟨(c6_update_status_contract sampleState 1 "BAD").1.mpr (by decide),
   (c6_update_status_contract sampleState 1 "BAD").2.1 (by decide),
   (c6_update_status_contract sampleState 9 "CLOSED").2.2 (by decide)⟩

/-- Witness for C7 (amended) at a concrete non-loopback pair. -/
theorem c7_loopback_no_widening_witness :
    domainAllowed "www.acme.com" "acme.com" = true ↔
      c7PlainRule "www.acme.com" "acme.com" :=
  c7_loopback_no_widening "www.acme.com" "acme.com" (by decide) (by decide)
    (by decide) (by decide)

/-- Witness for C8 at concrete pagination arguments. -/
theorem c8_list_clients_pagination_witness :
    ListClients sampleState 0 0 = ListClients sampleState 0 20 ∧
    ListClients sampleState (-1) 5 = ListClients sampleState 0 5 :=
  ⟨(c8_list_clients_pagination sampleState 0 0).2.1 (by decide),
   (c8_list_clients_pagination sampleState (-1) 5).2.2 (by decide)⟩

/-- Witness for C9 at concrete requests: blank allowed-domain, no usable
header, and a blank-domain client admitting nothing. -/
theorem c9_origin_fail_closed_witness :
    domainAllowed "evil.com" " " = false ∧
    checkAllowedOrigin sampleState (fun _ => "") "https://x" "" (some 1) = (false, "") ∧
    checkAllowedOrigin blankState (fun _ => "evil.com") "https://evil.com" "" (some 1) =
      (false, "") := by
  have h := c9_origin_fail_closed
  exact ⟨h.1 "evil.com" " " (Or.inr (by decide)),
    h.2.1 sampleState (fun _ => "") "https://x" "" (some 1) (Or.inr rfl) (Or.inl rfl),
    h.2.2 blankState (fun _ => "evil.com") "https://evil.com" "" 1 sampleForm blankClient
      (by decide) (by decide) (by decide)⟩
